import Mathlib

/-!
# data-lake-house: the value encoder, the row iterator and the streaming session

A shallow embedding of `grpc/SqlServer.go` (`ExecuteQuery`, `convertRowToProto`,
`convertValueToProto`), `db/Iterator.go` (`SqlIterator`) and `db/server.go`
(`DbServer.Query`), together with the parts of the Go standard library they
call (`time`, `database/sql`, `errors`, `fmt`, `timestamppb`, `durationpb`).

Conventions.
* Go machine integers that are only stored or copied (`int64` cells, the
  fields of an interval) are `Int`. Arithmetic that can leave the 64-bit
  range (`Time.Sub`) saturates as the Go code does.
* A Go `map[string]interface{}` is a list of entries; the `for ... range`
  loop visits them in list order.
* Go functions returning `(x, error)` return `Except GoError x`.
-/

namespace Lakehouse

/-! ## Errors -/

/-- Go `error` values as far as the program distinguishes them. -/
inductive GoError where
  /-- The sentinel `sql.ErrNoRows`. -/
  | errNoRows
  /-- An error made by `errors.New` or by `fmt.Errorf` without `%w`, or any
  error of the driver; it wraps nothing. -/
  | new (msg : String)
  /-- An error made by `fmt.Errorf` with `%w`: it wraps `inner`. -/
  | wrap (msg : String) (inner : GoError)
  deriving DecidableEq, Repr

/-- Go `err.Error()`. -/
def GoError.Error : GoError → String
  | .errNoRows => "sql: no rows in result set"
  | .new msg => msg
  | .wrap msg _ => msg

/-- Go `errors.Is(err, sql.ErrNoRows)`: follows the chain of wrapped errors. -/
def GoError.isErrNoRows : GoError → Bool
  | .errNoRows => true
  | .new _ => false
  | .wrap _ inner => inner.isErrNoRows

/-! ## The `time` package

Locations, instants and the proleptic Gregorian calendar as the Go standard
library computes them (`Location.lookup`, `Time.abs`, `absDate`,
`daysSinceEpoch`, `Date`, `Time.Sub`). Seconds and years are unbounded `Int`;
the linear scan of `lookup` finds the same zone as the binary search of the
library on transitions in increasing order. -/

/-- A time zone of a location: abbreviation and offset in seconds east of UTC. -/
structure Zone where
  name : String
  offset : Int
  deriving DecidableEq, Repr

/-- A zone transition: from Unix time `when` on, `zone` is in effect. -/
structure ZoneTrans where
  when : Int
  zone : Zone
  deriving DecidableEq, Repr

/-- A `*time.Location`: the zone in effect before the first transition and the
transitions in increasing order of `when`. The location `time.UTC` and a
location made by `time.FixedZone` are held with no transition. -/
structure Location where
  first : Zone
  tx : List ZoneTrans
  deriving DecidableEq, Repr

/-- The location `time.UTC`. -/
def UTC : Location := { first := { name := "UTC", offset := 0 }, tx := [] }

/-- The least Unix time of the `time` package (`alpha = -1 << 63`). -/
def alphaTime : Int := -9223372036854775808

/-- The greatest Unix time of the `time` package (`omega = 1<<63 - 1`). -/
def omegaTime : Int := 9223372036854775807

/-- The scan of `Location.lookup`: the zone in effect at `sec` with the start
and the end of its period, given the zone `cur` in effect since `start` and
the transitions still ahead. -/
def Location.lookupFrom (cur : Zone) (start : Int) : List ZoneTrans → Int → Zone × Int × Int
  | [], _ => (cur, start, omegaTime)
  | tr :: rest, sec =>
    if sec < tr.when then (cur, start, tr.when)
    else Location.lookupFrom tr.zone tr.when rest sec

/-- Go `l.lookup(sec)`: the zone in use at Unix time `sec`, and the interval
`[start, end)` of Unix times in which it is in effect. -/
def Location.lookup (l : Location) (sec : Int) : Zone × Int × Int :=
  Location.lookupFrom l.first alphaTime l.tx sec

/-- The least `time.Duration`; a duration is a count of nanoseconds held in an
`int64`, here an `Int`. -/
def minDuration : Int := -9223372036854775808

/-- The greatest `time.Duration`. -/
def maxDuration : Int := 9223372036854775807

/-- A `time.Time` without monotonic clock reading: an instant, as seconds
since the Unix epoch and nanoseconds within the second (`0 ≤ nsec < 10^9`),
with the location it is presented in. -/
structure Time where
  sec : Int
  nsec : Nat
  loc : Location
  deriving DecidableEq, Repr

def secondsPerMinute : Int := 60
def secondsPerHour : Int := 3600
def secondsPerDay : Int := 86400
def daysPer400Years : Int := 146097
def daysPer100Years : Int := 36524
def daysPer4Years : Int := 1461

/-- Seconds from January 1 of year 1 to the Unix epoch
(`unixToInternal`: `(1969*365 + 1969/4 - 1969/100 + 1969/400) * 86400`). -/
def unixToInternal : Int := 62135596800

/-- Go `t.abs()`: the seconds since January 1 of year 1, 00:00:00, read on the
clock of the location of `t`. (Go counts from an earlier year that is
congruent to 1 modulo 400 to keep the count unsigned; with `Int` and floor
division the calendar is the same.) -/
def Time.abs (t : Time) : Int :=
  t.sec + (t.loc.lookup t.sec).1.offset + unixToInternal

/-- Go `isLeap(year)`. -/
def isLeap (year : Int) : Bool :=
  year % 4 == 0 && (year % 100 != 0 || year % 400 == 0)

/-- The table `daysBefore`: `daysBefore m` is the number of days in a
non-leap year before month `m + 1`. -/
def daysBefore : Int → Int
  | 0 => 0
  | 1 => 31
  | 2 => 59
  | 3 => 90
  | 4 => 120
  | 5 => 151
  | 6 => 181
  | 7 => 212
  | 8 => 243
  | 9 => 273
  | 10 => 304
  | 11 => 334
  | _ => 365

/-- Go `daysSinceEpoch(year)`: the days from January 1 of year 1 to January 1 of
`year`, by 400-, 100-, 4- and 1-year cycles. -/
def daysSinceEpoch (year : Int) : Int :=
  let y := year - 1
  let n400 := y / 400
  let y1 := y - 400 * n400
  let n100 := y1 / 100
  let y2 := y1 - 100 * n100
  let n4 := y2 / 4
  let y3 := y2 - 4 * n4
  daysPer400Years * n400 + daysPer100Years * n100 + daysPer4Years * n4 + 365 * y3

/-- The first half of `absDate`: year and day of the year (from 0) of day
number `d`. -/
def absYear (d : Int) : Int × Int :=
  let n400 := d / daysPer400Years
  let d1 := d - daysPer400Years * n400
  let n100 := d1 / daysPer100Years
  let n100 := n100 - n100 / 4
  let d2 := d1 - daysPer100Years * n100
  let n4 := d2 / daysPer4Years
  let d3 := d2 - daysPer4Years * n4
  let n1 := d3 / 365
  let n1 := n1 - n1 / 4
  let yday := d3 - 365 * n1
  (400 * n400 + 100 * n100 + 4 * n4 + n1 + 1, yday)

/-- The second half of `absDate`: month (1 to 12) and day of the month of day
`yday` of `year`. -/
def monthDay (year yday : Int) : Int × Int :=
  if isLeap year ∧ yday = 31 + 29 - 1 then (2, 29)
  else
    let day := if isLeap year ∧ yday > 31 + 29 - 1 then yday - 1 else yday
    let month := day / 31
    let stop := daysBefore (month + 1)
    if day ≥ stop then (month + 2, day - stop + 1)
    else (month + 1, day - daysBefore month + 1)

/-- Go `absDate(abs, true)`: year, month and day of the absolute second count. -/
def absDate (abs : Int) : Int × Int × Int :=
  let yy := absYear (abs / secondsPerDay)
  let md := monthDay yy.1 yy.2
  (yy.1, md.1, md.2)

def Time.Year (t : Time) : Int := (absDate t.abs).1
def Time.Month (t : Time) : Int := (absDate t.abs).2.1
def Time.Day (t : Time) : Int := (absDate t.abs).2.2
def Time.Hour (t : Time) : Int := t.abs % secondsPerDay / secondsPerHour
def Time.Minute (t : Time) : Int := t.abs % secondsPerHour / secondsPerMinute
def Time.Second (t : Time) : Int := t.abs % secondsPerMinute
def Time.Nanosecond (t : Time) : Int := t.nsec
def Time.Location (t : Time) : Location := t.loc
def Time.Unix (t : Time) : Int := t.sec

/-- Go `norm(hi, lo, base)`: carries `lo` into `hi` so that `0 ≤ lo < base`. -/
def norm (hi lo base : Int) : Int × Int := (hi + lo / base, lo % base)

/-- Go `time.Date(year, month, day, hour, min, sec, nsec, loc)`. -/
def Date (year month day hour min sec nsec : Int) (loc : Location) : Time :=
  let ym := norm year (month - 1) 12
  let year := ym.1
  let month := ym.2 + 1
  let sn := norm sec nsec 1000000000
  let ms := norm min sn.1 60
  let hm := norm hour ms.1 60
  let dh := norm day hm.1 24
  let d := daysSinceEpoch year + daysBefore (month - 1)
    + (if isLeap year ∧ month ≥ 3 then 1 else 0) + (dh.1 - 1)
  let abs := d * secondsPerDay + (dh.2 * secondsPerHour + hm.2 * secondsPerMinute + ms.2)
  let unix := abs - unixToInternal
  let z := loc.lookup unix
  let offset :=
    if z.1.offset ≠ 0 then
      let utc := unix - z.1.offset
      if utc < z.2.1 ∨ utc ≥ z.2.2 then (loc.lookup utc).1.offset else z.1.offset
    else 0
  { sec := unix - offset, nsec := sn.2.toNat, loc := loc }

/-- Go `t.Sub(u)`: the duration `t - u`, saturated to the range of `int64`. -/
def Time.Sub (t u : Time) : Int :=
  let d := (t.sec - u.sec) * 1000000000 + ((t.nsec : Int) - (u.nsec : Int))
  if d < minDuration then minDuration
  else if maxDuration < d then maxDuration
  else d

/-! ## Well-known protobuf types -/

/-- A `timestamppb.Timestamp`. -/
structure Timestamp where
  seconds : Int
  nanos : Int
  deriving DecidableEq, Repr

/-- Go `timestamppb.New(t)`. -/
def timestamppbNew (t : Time) : Timestamp :=
  { seconds := t.Unix, nanos := t.Nanosecond }

/-- A `durationpb.Duration`. -/
structure PbDuration where
  seconds : Int
  nanos : Int
  deriving DecidableEq, Repr

/-- Go `durationpb.New(d)`; the `/` of Go truncates toward zero. -/
def durationpbNew (d : Int) : PbDuration :=
  let secs := Int.tdiv d 1000000000
  { seconds := secs, nanos := d - secs * 1000000000 }

/-- Go `x.AsDuration()` for a duration in range. -/
def PbDuration.AsDuration (x : PbDuration) : Int :=
  x.seconds * 1000000000 + x.nanos

/-! ## Values of the engine and of the wire -/

/-- A `duckdb.Interval`. -/
structure Interval where
  days : Int
  months : Int
  micros : Int
  deriving DecidableEq, Repr

/-- A `duckdb.Decimal`: `value / 10 ^ scale`. -/
structure Decimal where
  width : Nat
  scale : Nat
  value : Int
  deriving DecidableEq, Repr

/-- A Go `float64`, as its IEEE 754 bit pattern. The program only copies
floating-point values. -/
structure Float64 where
  bits : Nat
  deriving DecidableEq, Repr

/-- The dynamic values an `interface{}` cell of a row can hold. -/
inductive GoValue where
  /-- The nil interface value. -/
  | nil
  /-- A `time.Time`. -/
  | time (t : Time)
  /-- A `duckdb.Interval`. -/
  | interval (i : Interval)
  /-- A `map[string]interface{}`; the keys of a Go map are distinct. -/
  | map (entries : List (String × GoValue))
  /-- A `[]interface{}`. -/
  | list (items : List GoValue)
  | int64 (n : Int)
  | float64 (f : Float64)
  /-- A `duckdb.Decimal`. -/
  | decimal (d : Decimal)
  | bool (b : Bool)
  | string (s : String)
  /-- A `[]byte`. -/
  | bytes (b : List UInt8)
  /-- An `int32`, the Go type of a DuckDB `INTEGER`: a kind for which the type
  switch has no case. -/
  | int32 (n : Int)
  /-- A value of a defined type whose underlying type is `string` and that has
  no `String` or `Error` method (`type T string`): the type switch has no case
  for it, its case `string` matches the type `string` only. -/
  | definedString (s : String)
  /-- A value of any other dynamic type, given by the text `fmt.Sprint`
  produces for it. -/
  | other (text : String)

/-- Modelled from the spec: the `Interval` message of the generated protobuf
package `grpc/GrpcServer` (not part of the sources): `Interval{months, days,
micros}`. -/
structure PbInterval where
  months : Int
  days : Int
  micros : Int
  deriving DecidableEq, Repr

/-- Modelled from the spec: the `Value` message of the generated protobuf
package `grpc/GrpcServer` (not part of the sources), the tagged union
`Null | Int64 | Double | Bool | String | Bytes | Timestamp | Duration |
Interval | List<Value> | Map<string,Value>`; the source names the variants
`Value_NullValue`, `Value_Int64Value`, and so on. -/
inductive Value where
  | null
  | int64 (n : Int)
  | double (f : Float64)
  | bool (b : Bool)
  | string (s : String)
  | bytes (b : List UInt8)
  | timestamp (ts : Timestamp)
  | duration (d : PbDuration)
  | interval (i : PbInterval)
  | list (values : List Value)
  | map (fields : List (String × Value))

/-- A `*sql.ColumnType` as far as the program reads it. -/
structure ColumnType where
  name : String
  databaseTypeName : String
  deriving DecidableEq, Repr

def ColumnType.Name (ct : ColumnType) : String := ct.name
def ColumnType.DatabaseTypeName (ct : ColumnType) : String := ct.databaseTypeName

/-- Library functions the program calls and this development does not
compute: they are parameters of the embedding. -/
structure Library where
  /-- Go `duckdb.Decimal.Float64`. -/
  decimalFloat64 : Decimal → Float64
  /-- Go `fmt.Sprint` on the kinds of value that `fmtSprint` below does not
  render itself (of those, only `time.Time` reaches it from the program). -/
  Sprint : GoValue → String

/-- Go `fmt.Sprint(v)`: the `%v` rendering of one operand. A struct prints its
fields in declaration order between braces (`Days`, `Months`, `Micros` for a
`duckdb.Interval`), an integer prints in decimal, a value whose underlying
type is `string` prints its text unchanged. -/
def fmtSprint (lib : Library) : GoValue → String
  | .interval i =>
    "\x7b" ++ toString i.days ++ " " ++ toString i.months ++ " " ++ toString i.micros ++ "\x7d"
  | .int32 n => toString n
  | .definedString s => s
  | .other text => text
  | v => lib.Sprint v

/-- The assignment `m[key] = v` on a map held as a list of entries. -/
def mapSet (m : List (String × Value)) (key : String) (v : Value) : List (String × Value) :=
  match m with
  | [] => [(key, v)]
  | (k, w) :: rest => if k = key then (key, v) :: rest else (k, w) :: mapSet rest key v

/-- The declared-type switch of `convertValueToProto` (`if colType != nil`):
the value a matching rule returns, or `none` when control falls through to
the type switch. -/
def convertDeclared (v : GoValue) (colType : Option ColumnType) : Option Value :=
  match colType with
  | none => none
  | some ct =>
    if ct.DatabaseTypeName = "TIMESTAMP" ∨ ct.DatabaseTypeName = "DATE" then
      match v with
      | .time t => some (.timestamp (timestamppbNew t))
      | _ => none
    else if ct.DatabaseTypeName = "TIME" then
      match v with
      | .time t =>
        let nanos := t.Sub (Date t.Year t.Month t.Day 0 0 0 0 t.Location)
        some (.duration (durationpbNew nanos))
      | _ => none
    else if ct.DatabaseTypeName = "INTERVAL" then
      match v with
      | .interval i => some (.interval { months := i.months, days := i.days, micros := i.micros })
      | _ => none
    else none

mutual
/-- The function `convertValueToProto(v, colType)` of `grpc/SqlServer.go`. -/
def convertValueToProto (lib : Library) (v : GoValue) (colType : Option ColumnType) :
    Except GoError Value :=
  match v with
  | .nil => .ok .null
  | .map val =>
    match convertDeclared (.map val) colType with
    | some r => .ok r
    | none =>
      match convertMapEntries lib val [] with
      | .error err => .error err
      | .ok fields => .ok (.map fields)
  | .list val =>
    match convertDeclared (.list val) colType with
    | some r => .ok r
    | none =>
      match convertListItems lib val with
      | .error err => .error err
      | .ok values => .ok (.list values)
  | .int64 val =>
    match convertDeclared (.int64 val) colType with
    | some r => .ok r
    | none => .ok (.int64 val)
  | .float64 val =>
    match convertDeclared (.float64 val) colType with
    | some r => .ok r
    | none => .ok (.double val)
  | .decimal val =>
    match convertDeclared (.decimal val) colType with
    | some r => .ok r
    | none => .ok (.double (lib.decimalFloat64 val))
  | .bool val =>
    match convertDeclared (.bool val) colType with
    | some r => .ok r
    | none => .ok (.bool val)
  | .string val =>
    match convertDeclared (.string val) colType with
    | some r => .ok r
    | none => .ok (.string val)
  | .bytes val =>
    match convertDeclared (.bytes val) colType with
    | some r => .ok r
    | none => .ok (.bytes val)
  | .time t =>
    match convertDeclared (.time t) colType with
    | some r => .ok r
    | none => .ok (.string (fmtSprint lib (.time t)))
  | .interval i =>
    match convertDeclared (.interval i) colType with
    | some r => .ok r
    | none => .ok (.string (fmtSprint lib (.interval i)))
  | .int32 n =>
    match convertDeclared (.int32 n) colType with
    | some r => .ok r
    | none => .ok (.string (fmtSprint lib (.int32 n)))
  | .definedString s =>
    match convertDeclared (.definedString s) colType with
    | some r => .ok r
    | none => .ok (.string (fmtSprint lib (.definedString s)))
  | .other text =>
    match convertDeclared (.other text) colType with
    | some r => .ok r
    | none => .ok (.string (fmtSprint lib (.other text)))
/-- The loop `for key, item := range val` of the map case: each entry is
converted with no declared type and stored in `mapVal.Fields`; the first
error ends the loop. -/
def convertMapEntries (lib : Library) (val : List (String × GoValue))
    (fields : List (String × Value)) : Except GoError (List (String × Value)) :=
  match val with
  | [] => .ok fields
  | (key, item) :: rest =>
    match convertValueToProto lib item none with
    | .error err => .error err
    | .ok protoVal => convertMapEntries lib rest (mapSet fields key protoVal)
/-- The loop `for i, item := range val` of the list case: each item is
converted with no declared type and stored at its index; the first error
ends the loop. -/
def convertListItems (lib : Library) (val : List GoValue) : Except GoError (List Value) :=
  match val with
  | [] => .ok []
  | item :: rest =>
    match convertValueToProto lib item none with
    | .error err => .error err
    | .ok protoVal =>
      match convertListItems lib rest with
      | .error err => .error err
      | .ok values => .ok (protoVal :: values)
end

/-! ## `database/sql` result sets and the row iterator -/

/-- How a call ends: it returns, or it panics. -/
inductive Outcome (α : Type) where
  | ret (a : α)
  | panic (msg : String)

/-- A `*sql.Rows`: the cursor of one executed query. `pending` and `failure`
are what the engine will deliver: the rows still to come and, if the result
set does not end cleanly after them, the error that ends it (a transport
fault, an execution error of the engine). `current` and `lasterr` are the
fields `lastcols` and `lasterr` of the cursor: the row made available by the
last `Next`, and the error `Err` reports. -/
structure Rows where
  columnTypes : Except GoError (List ColumnType)
  pending : List (List GoValue)
  failure : Option GoError
  current : Option (List GoValue)
  lasterr : Option GoError

/-- Go `rows.ColumnTypes()`. -/
def Rows.ColumnTypes (rs : Rows) : Except GoError (List ColumnType) := rs.columnTypes

/-- Go `rows.Next()`: prepares the next row for `Scan` and returns true; returns
false when there is no next row or when preparing it failed, and `Err` then
tells the two apart. -/
def Rows.Next (rs : Rows) : Bool × Rows :=
  match rs.pending with
  | row :: rest => (true, { rs with pending := rest, current := some row })
  | [] => (false, { rs with current := none, lasterr := rs.failure })

/-- Go `rows.Err()`: the error, if any, that was met during iteration. -/
def Rows.Err (rs : Rows) : Option GoError := rs.lasterr

/-- Go `rows.Scan(dest...)` with `ndest` destinations of type `*interface{}`:
each column of the current row is copied to its destination unchanged. -/
def Rows.Scan (rs : Rows) (ndest : Nat) : Except GoError (List GoValue) :=
  match rs.current with
  | none => .error (.new "sql: Scan called without calling Next")
  | some row =>
    if ndest ≠ row.length then
      .error (.new ("sql: expected " ++ toString row.length
        ++ " destination arguments in Scan, not " ++ toString ndest))
    else .ok row

/-- The `SqlIterator` of `db/Iterator.go`. -/
structure SqlIterator where
  rows : Rows
  columns : List ColumnType

/-- The function `NewSqlIterator(rows)` of `db/Iterator.go`: it panics when the
column metadata cannot be read. -/
def NewSqlIterator (rows : Rows) : Outcome SqlIterator :=
  match rows.ColumnTypes with
  | .error err => .panic err.Error
  | .ok cols => .ret { rows := rows, columns := cols }

/-- The method `iter.Columns()` of `db/Iterator.go`. -/
def SqlIterator.Columns (iter : SqlIterator) : List ColumnType := iter.columns

/-- The method `iter.Next()` of `db/Iterator.go`: the result and the iterator
after the call. -/
def SqlIterator.Next (iter : SqlIterator) : Except GoError (List GoValue) × SqlIterator :=
  match iter.rows.Next with
  | (true, rows) =>
    match rows.Scan iter.columns.length with
    | .error err => (.error err, { iter with rows := rows })
    | .ok values => (.ok values, { iter with rows := rows })
  | (false, rows) => (.error .errNoRows, { iter with rows := rows })

/-- The `DbServer` of `db/server.go`: the engine handle, given by what
`server.db.Query` answers to a query text, with the log of the texts that
were submitted to the engine. -/
structure DbServer where
  db : String → Except GoError Rows
  queries : List String

/-- The method `server.Query(query)` of `db/server.go`: the result and the
engine handle after the call. -/
def DbServer.Query (server : DbServer) (query : String) :
    Outcome (Except GoError SqlIterator) × DbServer :=
  let server1 := { server with queries := server.queries ++ [query] }
  match server.db query with
  | .error err => (.ret (.error (.new ("failed to query data: " ++ err.Error))), server1)
  | .ok rows =>
    match NewSqlIterator rows with
    | .panic msg => (.panic msg, server1)
    | .ret iter => (.ret (.ok iter), server1)

/-! ## The streaming session -/

/-- Modelled from the spec: the `Column` message of the generated protobuf
package (not part of the sources): `{name: string, declaredType: string}`,
with the field names `Name` and `Type` the source uses. -/
structure Column where
  name : String
  type : String
  deriving DecidableEq, Repr

/-- Modelled from the spec: the messages of the outbound stream of the
generated protobuf package (not part of the sources): a `Header` with the
ordered list of columns, or a `Row` with the ordered list of values. -/
inductive ExecuteQueryResponse where
  | header (columns : List Column)
  | row (values : List Value)

/-- Modelled from the spec: the inbound `QueryRequest` of the generated
protobuf package (not part of the sources): a single query-text string. -/
structure QueryRequest where
  sql : String

/-- Go `req.GetSql()`. -/
def QueryRequest.GetSql (req : QueryRequest) : String := req.sql

/-- The server side of the stream: the messages sent so far, and for each
count of messages already sent whether the next `Send` fails. -/
structure ServerStream where
  sent : List ExecuteQueryResponse
  sendErr : Nat → Option GoError

/-- Go `stream.Send(m)`. -/
def ServerStream.Send (stream : ServerStream) (m : ExecuteQueryResponse) :
    Option GoError × ServerStream :=
  match stream.sendErr stream.sent.length with
  | some err => (some err, stream)
  | none => (none, { stream with sent := stream.sent ++ [m] })

/-- The loop of `convertRowToProto` from index `i` on; indexing `colTypes`
out of range panics. -/
def convertRowValues (lib : Library) (colTypes : List ColumnType) :
    Nat → List GoValue → Outcome (Except GoError (List Value))
  | _, [] => .ret (.ok [])
  | i, v :: rest =>
    match colTypes[i]? with
    | none => .panic "index out of range"
    | some ct =>
      match convertValueToProto lib v (some ct) with
      | .error err =>
        .ret (.error (.wrap ("error converting value at index " ++ toString i ++ ": "
          ++ err.Error) err))
      | .ok val =>
        match convertRowValues lib colTypes (i + 1) rest with
        | .panic msg => .panic msg
        | .ret (.error err) => .ret (.error err)
        | .ret (.ok vals) => .ret (.ok (val :: vals))

/-- The function `convertRowToProto(rowValues, colTypes)` of `grpc/SqlServer.go`:
the values of the `Row`. -/
def convertRowToProto (lib : Library) (rowValues : List GoValue) (colTypes : List ColumnType) :
    Outcome (Except GoError (List Value)) :=
  convertRowValues lib colTypes 0 rowValues

/-- The `for` loop of `ExecuteQuery`: what it returns and the stream after it. -/
def streamRows (lib : Library) (colTypes : List ColumnType) (iter : SqlIterator)
    (stream : ServerStream) : Outcome (Option GoError) × ServerStream :=
  match h : iter.Next with
  | (.error err, _) =>
    if err.isErrNoRows then (.ret none, stream)
    else (.ret (some err), stream)
  | (.ok rowValues, iter1) =>
    match convertRowToProto lib rowValues colTypes with
    | .panic msg => (.panic msg, stream)
    | .ret (.error err) => (.ret (some err), stream)
    | .ret (.ok protoRow) =>
      match stream.Send (.row protoRow) with
      | (some err, stream1) => (.ret (some err), stream1)
      | (none, stream1) => streamRows lib colTypes iter1 stream1
termination_by iter.rows.pending.length
decreasing_by
  unfold SqlIterator.Next Rows.Next at h
  cases hp : iter.rows.pending with
  | nil => simp [hp] at h
  | cons row rest =>
    simp only [hp] at h
    split at h
    · simp at h
    · simp only [Prod.mk.injEq] at h
      rw [← h.2]
      simp

/-- The method `s.ExecuteQuery(req, stream)` of `grpc/SqlServer.go`: the error
returned (`none` is the `nil` of Go),
the engine handle and the stream after the call. -/
def ExecuteQuery (lib : Library) (s : DbServer) (req : QueryRequest) (stream : ServerStream) :
    Outcome (Option GoError) × DbServer × ServerStream :=
  let sqlStmt := req.GetSql
  if sqlStmt = "" then (.ret (some (.new "sql string is empty")), s, stream)
  else
    match s.Query sqlStmt with
    | (.panic msg, s1) => (.panic msg, s1, stream)
    | (.ret (.error err), s1) =>
      (.ret (some (.new ("error executing query: " ++ err.Error))), s1, stream)
    | (.ret (.ok iter), s1) =>
      let colTypes := iter.Columns
      let pbCols := colTypes.map (fun ct => { name := ct.Name, type := ct.DatabaseTypeName })
      match stream.Send (.header pbCols) with
      | (some err, stream1) => (.ret (some err), s1, stream1)
      | (none, stream1) =>
        let r := streamRows lib colTypes iter stream1
        (r.1, s1, r.2)

/-! ## Notions the statements use -/

/-- An instance of the library parameters for the evaluation of examples. No
statement depends on the choice. -/
def sampleLibrary : Library :=
  { decimalFloat64 := fun d => { bits := d.value.toNat }, Sprint := fun _ => "time" }

/-- The value is of a kind that reaches the `default` branch of the type
switch under the declared type `colType`: not nil, not a time or interval
matched by a declared-type rule, not a map, list, `int64`, `float64`,
decimal, `bool`, `string` or `[]byte`. -/
def unrecognized (v : GoValue) (colType : Option ColumnType) : Bool :=
  match v with
  | .time _ => (convertDeclared v colType).isNone
  | .interval _ => (convertDeclared v colType).isNone
  | .int32 _ => true
  | .definedString _ => true
  | .other _ => true
  | _ => false

mutual
/-- The value is built from lists and maps whose leaves are nil, `int64`,
`float64`, `bool`, `string` or `[]byte` only; the keys of each map are
distinct, as they are in every Go map. -/
def plainValue : GoValue → Bool
  | .nil => true
  | .int64 _ => true
  | .float64 _ => true
  | .bool _ => true
  | .string _ => true
  | .bytes _ => true
  | .list items => plainItems items
  | .map entries => plainEntries entries && decide ((entries.map Prod.fst).Nodup)
  | _ => false
def plainItems : List GoValue → Bool
  | [] => true
  | item :: rest => plainValue item && plainItems rest
def plainEntries : List (String × GoValue) → Bool
  | [] => true
  | (_, item) :: rest => plainValue item && plainEntries rest
end

/-- Go `ts.AsTime()`: the instant of a `Timestamp`, in UTC. -/
def Timestamp.AsTime (ts : Timestamp) : Time :=
  { sec := ts.seconds, nsec := ts.nanos.toNat, loc := UTC }

mutual
/-- The decoding of a wire value the round-trip statement speaks of: a `List`
to a list, a `Map` to a map, each leaf variant to its payload. A `Duration`
has no kind of cell value to decode to. -/
def decodeValue : Value → Option GoValue
  | .null => some .nil
  | .int64 n => some (.int64 n)
  | .double f => some (.float64 f)
  | .bool b => some (.bool b)
  | .string s => some (.string s)
  | .bytes b => some (.bytes b)
  | .timestamp ts => some (.time ts.AsTime)
  | .duration _ => none
  | .interval i => some (.interval { days := i.days, months := i.months, micros := i.micros })
  | .list values =>
    match decodeValues values with
    | none => none
    | some items => some (.list items)
  | .map fields =>
    match decodeFields fields with
    | none => none
    | some entries => some (.map entries)
def decodeValues : List Value → Option (List GoValue)
  | [] => some []
  | v :: rest =>
    match decodeValue v, decodeValues rest with
    | some x, some xs => some (x :: xs)
    | _, _ => none
def decodeFields : List (String × Value) → Option (List (String × GoValue))
  | [] => some []
  | (k, v) :: rest =>
    match decodeValue v, decodeFields rest with
    | some x, some xs => some ((k, x) :: xs)
    | _, _ => none
end

/-- An excerpt of the location `America/New_York`: the transitions of the
years 2022 to 2024 (EST is UTC-5, EDT is UTC-4), with EST before them. -/
def newYork : Location :=
  { first := { name := "EST", offset := -18000 },
    tx := [ { when := 1647154800, zone := { name := "EDT", offset := -14400 } },
            { when := 1667714400, zone := { name := "EST", offset := -18000 } },
            { when := 1678604400, zone := { name := "EDT", offset := -14400 } },
            { when := 1699164000, zone := { name := "EST", offset := -18000 } },
            { when := 1710054000, zone := { name := "EDT", offset := -14400 } } ] }

/-- The clock time 01:02:03.456 as the driver delivers a `TIME`: on January 1,
1970, in UTC. -/
def timeOfDay : Time := { sec := 3723, nsec := 456000000, loc := UTC }

/-- March 12, 2023, 15:00:00 in New York (19:00 UTC), the day daylight saving
time begins there. -/
def springForward : Time := { sec := 1678647600, nsec := 0, loc := newYork }

/-- March 13, 2023, 15:00:00 in New York (19:00 UTC). -/
def dayAfter : Time := { sec := 1678734000, nsec := 0, loc := newYork }

/-- November 5, 2023, 23:30:00 in New York (04:30 UTC of the next day), the
day daylight saving time ends there. -/
def fallBack : Time := { sec := 1699245000, nsec := 0, loc := newYork }

/-- A list holding an integer and a map that holds nil and a list of text. -/
def nestedExample : GoValue :=
  .list [.int64 1, .map [("a", .nil), ("b", .list [.string "x", .bytes [1, 2]])], .bool true]

/-- The query text is empty or consists of whitespace only. -/
def blank (sql : String) : Bool := sql.toList.all Char.isWhitespace

/-- A stream on which nothing was sent yet and every `Send` succeeds. -/
def freshStream : ServerStream := { sent := [], sendErr := fun _ => none }

/-- An engine that was not called yet and rejects every query text. -/
def rejectingServer : DbServer :=
  { db := fun _ => .error (.new "Parser Error: syntax error"), queries := [] }

/-- The columns `(hello, d:DATE, e:TIME, g:INTERVAL)` of the example session. -/
def exampleColumns : List ColumnType :=
  [ { name := "hello", databaseTypeName := "VARCHAR" },
    { name := "d", databaseTypeName := "DATE" },
    { name := "e", databaseTypeName := "TIME" },
    { name := "g", databaseTypeName := "INTERVAL" } ]

/-- The cursor of the example session: the rows `("world", 1992-09-20,
01:02:03.456, 5 days)` and `("world2", 2023-11-01, 14:30:45.123, 2 months)`,
then the clean end of the result set. -/
def exampleRows : Rows :=
  { columnTypes := .ok exampleColumns,
    pending :=
      [ [ .string "world", .time { sec := 716947200, nsec := 0, loc := UTC },
          .time timeOfDay, .interval { days := 5, months := 0, micros := 0 } ],
        [ .string "world2", .time { sec := 1698796800, nsec := 0, loc := UTC },
          .time { sec := 52245, nsec := 123000000, loc := UTC },
          .interval { days := 0, months := 2, micros := 0 } ] ],
    failure := none,
    current := none,
    lasterr := none }

/-- An engine that was not called yet and answers every query with the
cursor of the example session. -/
def exampleServer : DbServer := { db := fun _ => .ok exampleRows, queries := [] }

/-- A cursor over one column that delivers one row and then fails. -/
def brokenRows : Rows :=
  { columnTypes := .ok [ { name := "a", databaseTypeName := "BIGINT" } ],
    pending := [ [ .int64 1 ] ],
    failure := some (.new "connection reset by peer"),
    current := none,
    lasterr := none }

/-- An engine that was not called yet and answers every query with the
cursor that fails after one row. -/
def brokenServer : DbServer := { db := fun _ => .ok brokenRows, queries := [] }

/-- An iterator whose cursor has no row left to deliver because the
connection failed. -/
def failedIterator : SqlIterator :=
  { rows := { brokenRows with pending := [] },
    columns := [ { name := "a", databaseTypeName := "BIGINT" } ] }

/-! ## The value encoder -/

theorem convertDeclared_eq_none (v : GoValue) (colType : Option ColumnType)
    (ht : ∀ t, v ≠ .time t) (hi : ∀ i, v ≠ .interval i) : convertDeclared v colType = none := by
  unfold convertDeclared
  cases colType with
  | none => rfl
  | some ct => cases v <;> simp_all

theorem mapSet_append (m : List (String × Value)) (key : String) (v : Value)
    (h : key ∉ m.map Prod.fst) : mapSet m key v = m ++ [(key, v)] := by
  induction m with
  | nil => rfl
  | cons e rest ih =>
    obtain ⟨k, w⟩ := e
    simp only [List.map_cons, List.mem_cons, not_or] at h
    simp only [mapSet, List.cons_append]
    rw [if_neg (fun hk => h.1 hk.symm), ih h.2]

mutual
theorem convertValueToProto_total (lib : Library) : ∀ (v : GoValue) (ct : Option ColumnType),
    ∃ w, convertValueToProto lib v ct = .ok w
  | .nil, _ => ⟨.null, by simp [convertValueToProto]⟩
  | .map es, ct => by
    obtain ⟨fs, hfs⟩ := convertMapEntries_total lib es []
    simp [convertValueToProto, convertDeclared_eq_none, hfs]
  | .list xs, ct => by
    obtain ⟨fs, hfs⟩ := convertListItems_total lib xs
    simp [convertValueToProto, convertDeclared_eq_none, hfs]
  | .int64 _, ct => by simp [convertValueToProto, convertDeclared_eq_none]
  | .float64 _, ct => by simp [convertValueToProto, convertDeclared_eq_none]
  | .decimal _, ct => by simp [convertValueToProto, convertDeclared_eq_none]
  | .bool _, ct => by simp [convertValueToProto, convertDeclared_eq_none]
  | .string _, ct => by simp [convertValueToProto, convertDeclared_eq_none]
  | .bytes _, ct => by simp [convertValueToProto, convertDeclared_eq_none]
  | .int32 _, ct => by simp [convertValueToProto, convertDeclared_eq_none]
  | .definedString _, ct => by simp [convertValueToProto, convertDeclared_eq_none]
  | .other _, ct => by simp [convertValueToProto, convertDeclared_eq_none]
  | .time t, ct => by
    simp only [convertValueToProto]
    cases convertDeclared (.time t) ct <;> simp
  | .interval t, ct => by
    simp only [convertValueToProto]
    cases convertDeclared (.interval t) ct <;> simp
theorem convertMapEntries_total (lib : Library) :
    ∀ (es : List (String × GoValue)) (acc : List (String × Value)),
    ∃ fs, convertMapEntries lib es acc = .ok fs
  | [], acc => ⟨acc, by simp [convertMapEntries]⟩
  | (k, x) :: rest, acc => by
    obtain ⟨w, hw⟩ := convertValueToProto_total lib x none
    obtain ⟨fs, hfs⟩ := convertMapEntries_total lib rest (mapSet acc k w)
    exact ⟨fs, by simp [convertMapEntries, hw, hfs]⟩
theorem convertListItems_total (lib : Library) : ∀ (xs : List GoValue),
    ∃ ws, convertListItems lib xs = .ok ws
  | [] => ⟨[], by simp [convertListItems]⟩
  | x :: rest => by
    obtain ⟨w, hw⟩ := convertValueToProto_total lib x none
    obtain ⟨fs, hfs⟩ := convertListItems_total lib rest
    exact ⟨w :: fs, by simp [convertListItems, hw, hfs]⟩
end

/-- The list loop converts item by item, in order. -/
theorem convertListItems_forall₂ (lib : Library) : ∀ (xs : List GoValue),
    ∃ ws, convertListItems lib xs = .ok ws ∧
      List.Forall₂ (fun x y => convertValueToProto lib x none = .ok y) xs ws
  | [] => ⟨[], by simp [convertListItems]⟩
  | x :: rest => by
    obtain ⟨w, hw⟩ := convertValueToProto_total lib x none
    obtain ⟨ws, hws, hrel⟩ := convertListItems_forall₂ lib rest
    exact ⟨w :: ws, by simp [convertListItems, hw, hws], List.Forall₂.cons hw hrel⟩

/-- The map loop, on entries with distinct keys none of which is in the map
yet, appends the converted entries in order. -/
theorem convertMapEntries_forall₂ (lib : Library) :
    ∀ (es : List (String × GoValue)) (acc : List (String × Value)),
    (es.map Prod.fst).Nodup → (∀ k, k ∈ es.map Prod.fst → k ∉ acc.map Prod.fst) →
    ∃ fs, convertMapEntries lib es acc = .ok (acc ++ fs) ∧
      List.Forall₂ (fun e f => f.1 = e.1 ∧ convertValueToProto lib e.2 none = .ok f.2) es fs
  | [], acc, _, _ => ⟨[], by simp [convertMapEntries]⟩
  | (k, x) :: rest, acc, hnd, hdis => by
    obtain ⟨w, hw⟩ := convertValueToProto_total lib x none
    simp only [List.map_cons, List.nodup_cons] at hnd
    have hk : k ∉ acc.map Prod.fst := hdis k (by simp)
    have hdis1 : ∀ k1, k1 ∈ rest.map Prod.fst → k1 ∉ (mapSet acc k w).map Prod.fst := by
      intro k1 hk1
      rw [mapSet_append acc k w hk]
      simp only [List.map_append, List.map_cons, List.map_nil, List.mem_append, List.mem_singleton,
        not_or]
      refine ⟨hdis k1 (by simp [hk1]), ?_⟩
      intro h
      exact hnd.1 (h ▸ hk1)
    obtain ⟨fs, hfs, hrel⟩ := convertMapEntries_forall₂ lib rest (mapSet acc k w) hnd.2 hdis1
    refine ⟨(k, w) :: fs, ?_, List.Forall₂.cons ⟨rfl, hw⟩ hrel⟩
    rw [mapSet_append acc k w hk] at hfs
    simp [convertMapEntries, hw, hfs, mapSet_append acc k w hk]

mutual
theorem decode_convertValueToProto (lib : Library) : ∀ (v : GoValue) (ct : Option ColumnType),
    plainValue v = true → ∃ w, convertValueToProto lib v ct = .ok w ∧ decodeValue w = some v
  | .nil, _, _ => ⟨.null, by simp [convertValueToProto], by simp [decodeValue]⟩
  | .int64 n, ct, _ =>
    ⟨.int64 n, by simp [convertValueToProto, convertDeclared_eq_none], by simp [decodeValue]⟩
  | .float64 f, ct, _ =>
    ⟨.double f, by simp [convertValueToProto, convertDeclared_eq_none], by simp [decodeValue]⟩
  | .bool b, ct, _ =>
    ⟨.bool b, by simp [convertValueToProto, convertDeclared_eq_none], by simp [decodeValue]⟩
  | .string s, ct, _ =>
    ⟨.string s, by simp [convertValueToProto, convertDeclared_eq_none], by simp [decodeValue]⟩
  | .bytes b, ct, _ =>
    ⟨.bytes b, by simp [convertValueToProto, convertDeclared_eq_none], by simp [decodeValue]⟩
  | .list xs, ct, h => by
    simp only [plainValue] at h
    obtain ⟨ws, hws, hdec⟩ := decode_convertListItems lib xs h
    exact ⟨.list ws, by simp [convertValueToProto, convertDeclared_eq_none, hws],
      by simp [decodeValue, hdec]⟩
  | .map es, ct, h => by
    simp only [plainValue, Bool.and_eq_true, decide_eq_true_eq] at h
    obtain ⟨fs, hfs, hdec⟩ := decode_convertMapEntries lib es [] h.1 h.2 (by simp)
    simp only [List.nil_append] at hfs
    exact ⟨.map fs, by simp [convertValueToProto, convertDeclared_eq_none, hfs],
      by simp [decodeValue, hdec]⟩
  | .time _, _, h => by simp [plainValue] at h
  | .interval _, _, h => by simp [plainValue] at h
  | .decimal _, _, h => by simp [plainValue] at h
  | .int32 _, _, h => by simp [plainValue] at h
  | .definedString _, _, h => by simp [plainValue] at h
  | .other _, _, h => by simp [plainValue] at h
theorem decode_convertListItems (lib : Library) : ∀ (xs : List GoValue),
    plainItems xs = true → ∃ ws, convertListItems lib xs = .ok ws ∧ decodeValues ws = some xs
  | [], _ => ⟨[], by simp [convertListItems], by simp [decodeValues]⟩
  | x :: rest, h => by
    simp only [plainItems, Bool.and_eq_true] at h
    obtain ⟨w, hw, hdw⟩ := decode_convertValueToProto lib x none h.1
    obtain ⟨ws, hws, hdws⟩ := decode_convertListItems lib rest h.2
    exact ⟨w :: ws, by simp [convertListItems, hw, hws], by simp [decodeValues, hdw, hdws]⟩
theorem decode_convertMapEntries (lib : Library) :
    ∀ (es : List (String × GoValue)) (acc : List (String × Value)),
    plainEntries es = true → (es.map Prod.fst).Nodup →
    (∀ k, k ∈ es.map Prod.fst → k ∉ acc.map Prod.fst) →
    ∃ fs, convertMapEntries lib es acc = .ok (acc ++ fs) ∧ decodeFields fs = some es
  | [], acc, _, _, _ => ⟨[], by simp [convertMapEntries], by simp [decodeFields]⟩
  | (k, x) :: rest, acc, h, hnd, hdis => by
    simp only [plainEntries, Bool.and_eq_true] at h
    obtain ⟨w, hw, hdw⟩ := decode_convertValueToProto lib x none h.1
    simp only [List.map_cons, List.nodup_cons] at hnd
    have hk : k ∉ acc.map Prod.fst := hdis k (by simp)
    have hdis1 : ∀ k1, k1 ∈ rest.map Prod.fst → k1 ∉ (mapSet acc k w).map Prod.fst := by
      intro k1 hk1
      rw [mapSet_append acc k w hk]
      simp only [List.map_append, List.map_cons, List.map_nil, List.mem_append, List.mem_singleton,
        not_or]
      refine ⟨hdis k1 (by simp [hk1]), ?_⟩
      intro h
      exact hnd.1 (h ▸ hk1)
    obtain ⟨fs, hfs, hdfs⟩ := decode_convertMapEntries lib rest (mapSet acc k w) h.2 hnd.2 hdis1
    refine ⟨(k, w) :: fs, ?_, by simp [decodeFields, hdw, hdfs]⟩
    rw [mapSet_append acc k w hk] at hfs
    simp [convertMapEntries, hw, hfs, mapSet_append acc k w hk]
end

theorem year_arith (d a g j k : Int) (ha : a = d / 146097) (hg : g = (d - 146097 * a) / 36524)
    (hj : j = (d - 146097 * a - 36524 * (g - g / 4)) / 1461)
    (hk : k = (d - 146097 * a - 36524 * (g - g / 4) - 1461 * j) / 365) (y yd : Int)
    (hy : y = 400 * a + 100 * (g - g / 4) + 4 * j + (k - k / 4) + 1)
    (hyd : yd = d - 146097 * a - 36524 * (g - g / 4) - 1461 * j - 365 * (k - k / 4)) :
    (y - 1) / 400 = a ∧ (y - 1 - 400 * a) / 100 = g - g / 4 ∧
    (y - 1 - 400 * a - 100 * (g - g / 4)) / 4 = j ∧ 0 ≤ yd ∧
    (yd < 365 ∨ (yd = 365 ∧ y % 4 = 0 ∧ (y % 100 ≠ 0 ∨ y % 400 = 0))) := by
  have hg0 : 0 ≤ g := by omega
  have hg4 : g ≤ 4 := by omega
  have hk0 : 0 ≤ k := by omega
  have hk4 : k ≤ 4 := by omega
  interval_cases g <;> interval_cases k <;> omega

theorem absYear_spec (d : Int) :
    daysSinceEpoch (absYear d).1 + (absYear d).2 = d ∧ 0 ≤ (absYear d).2 ∧
    ((absYear d).2 < 365 ∨ ((absYear d).2 = 365 ∧ isLeap (absYear d).1 = true)) := by
  obtain ⟨h1, h2, h3, h4, h5⟩ := year_arith d _ _ _ _ rfl rfl rfl rfl _ _ rfl rfl
  simp only [absYear, daysSinceEpoch, isLeap, daysPer400Years, daysPer100Years, daysPer4Years]
  refine ⟨?_, h4, ?_⟩
  · rw [h1, h2, h3]; ring
  · rcases h5 with h5 | ⟨h5, h6, h7⟩
    · exact Or.inl h5
    · refine Or.inr ⟨h5, ?_⟩
      simp only [Bool.and_eq_true, Bool.or_eq_true, beq_iff_eq, bne_iff_ne, ne_eq]
      exact ⟨h6, h7⟩

theorem monthEstimate_spec (day : Int) (h0 : 0 ≤ day) (h1 : day < 365) (p : Int × Int)
    (hp : p = if day ≥ daysBefore (day / 31 + 1) then (day / 31 + 2, day - daysBefore (day / 31 + 1) + 1)
      else (day / 31 + 1, day - daysBefore (day / 31) + 1)) :
    1 ≤ p.1 ∧ p.1 ≤ 12 ∧ daysBefore (p.1 - 1) + (p.2 - 1) = day ∧ (p.1 ≥ 3 ↔ day ≥ 59) := by
  generalize hm : day / 31 = m at hp
  have hm0 : 0 ≤ m := by omega
  have hm11 : m ≤ 11 := by omega
  interval_cases m <;> simp only [Int.reduceAdd, daysBefore] at hp <;> split at hp <;> subst hp <;>
    simp only [Int.reduceSub, Int.reduceAdd, daysBefore] <;> omega

theorem monthDay_spec (year yday : Int) (h0 : 0 ≤ yday)
    (h1 : yday < 365 ∨ (yday = 365 ∧ isLeap year = true)) :
    1 ≤ (monthDay year yday).1 ∧ (monthDay year yday).1 ≤ 12 ∧
    daysBefore ((monthDay year yday).1 - 1)
      + (if isLeap year = true ∧ (monthDay year yday).1 ≥ 3 then 1 else 0)
      + ((monthDay year yday).2 - 1) = yday := by
  unfold monthDay
  cases hl : isLeap year
  · have hy : yday < 365 := by
      rcases h1 with h | ⟨_, h⟩
      · exact h
      · simp [hl] at h
    simp only [Bool.false_eq_true, false_and, if_false]
    obtain ⟨a, b, c, _⟩ := monthEstimate_spec yday h0 hy _ rfl
    exact ⟨a, b, by omega⟩
  · have hy : yday ≤ 365 := by omega
    simp only [true_and]
    by_cases h58 : yday = 31 + 29 - 1
    · simp only [h58, if_true]
      simp [daysBefore]
    · simp only [h58, if_false]
      by_cases hgt : yday > 31 + 29 - 1
      · simp only [hgt, if_true]
        generalize hp : (if yday - 1 ≥ daysBefore ((yday - 1) / 31 + 1)
          then ((yday - 1) / 31 + 2, yday - 1 - daysBefore ((yday - 1) / 31 + 1) + 1)
          else ((yday - 1) / 31 + 1, yday - 1 - daysBefore ((yday - 1) / 31) + 1)) = p
        obtain ⟨a, b, c, e⟩ := monthEstimate_spec (yday - 1) (by omega) (by omega) p hp.symm
        refine ⟨a, b, ?_⟩
        rw [if_pos (e.mpr (by omega))]
        omega
      · simp only [hgt, if_false]
        generalize hp : (if yday ≥ daysBefore (yday / 31 + 1)
          then (yday / 31 + 2, yday - daysBefore (yday / 31 + 1) + 1)
          else (yday / 31 + 1, yday - daysBefore (yday / 31) + 1)) = p
        obtain ⟨a, b, c, e⟩ := monthEstimate_spec yday h0 (by omega) p hp.symm
        refine ⟨a, b, ?_⟩
        rw [if_neg (fun h => by have := e.mp h; omega)]
        omega

theorem absDate_days (abs : Int) :
    1 ≤ (absDate abs).2.1 ∧ (absDate abs).2.1 ≤ 12 ∧
    daysSinceEpoch (absDate abs).1 + daysBefore ((absDate abs).2.1 - 1)
      + (if isLeap (absDate abs).1 = true ∧ (absDate abs).2.1 ≥ 3 then 1 else 0)
      + ((absDate abs).2.2 - 1) = abs / secondsPerDay := by
  obtain ⟨h1, h2, h3⟩ := absYear_spec (abs / secondsPerDay)
  obtain ⟨m1, m2, m3⟩ := monthDay_spec _ _ h2 h3
  simp only [absDate]
  refine ⟨m1, m2, ?_⟩
  omega

theorem Date_midnight (t : Time) (off : Int) (hfix : ∀ sec, (t.loc.lookup sec).1.offset = off) :
    Date t.Year t.Month t.Day 0 0 0 0 t.Location =
      { sec := t.abs / secondsPerDay * secondsPerDay - unixToInternal - off,
        nsec := 0, loc := t.loc } := by
  obtain ⟨m1, m2, m3⟩ := absDate_days t.abs
  have e1 : (t.Month - 1) / 12 = 0 := by unfold Time.Month; omega
  have e2 : (t.Month - 1) % 12 = t.Month - 1 := by unfold Time.Month; omega
  simp only [Date, norm, Time.Location, hfix, e1, e2, Time.Year, Time.Month, Time.Day] at *
  simp only [Int.add_zero, Int.sub_add_cancel, Int.zero_emod, Int.zero_mul, Int.zero_ediv,
    EuclideanDomain.zero_div, zero_mul, add_zero, m3]
  congr 1
  split <;> simp_all

/-! ### The clock reading of a time in a location with a fixed offset -/

theorem Sub_midnight (t : Time) (off : Int) (hfix : ∀ sec, (t.loc.lookup sec).1.offset = off)
    (hns : t.nsec < 1000000000) :
    t.Sub (Date t.Year t.Month t.Day 0 0 0 0 t.Location)
      = (t.Hour * 3600 + t.Minute * 60 + t.Second) * 1000000000 + t.Nanosecond ∧
    0 ≤ t.Hour * 3600 + t.Minute * 60 + t.Second ∧
    t.Hour * 3600 + t.Minute * 60 + t.Second < 86400 := by
  rw [Date_midnight t off hfix]
  simp only [Time.Sub, Time.Hour, Time.Minute, Time.Second, Time.Nanosecond, secondsPerDay,
    secondsPerHour, secondsPerMinute, minDuration, maxDuration]
  have habs : t.abs = t.sec + off + unixToInternal := by
    simp [Time.abs, hfix]
  generalize t.abs = a at *
  have hn : (0 : Int) ≤ (t.nsec : Int) := Int.ofNat_nonneg _
  have hn1 : (t.nsec : Int) < 1000000000 := by exact_mod_cast hns
  have hdiff : t.sec - (a / 86400 * 86400 - unixToInternal - off) = a % 86400 := by
    omega
  have hclock : a % 86400 / 3600 * 3600 + a % 3600 / 60 * 60 + a % 60 = a % 86400 := by
    have e1 : a % 86400 % 3600 = a % 3600 := Int.emod_emod_of_dvd a (by norm_num)
    have e2 : a % 3600 % 60 = a % 60 := Int.emod_emod_of_dvd a (by norm_num)
    generalize a % 86400 = r at *
    generalize a % 3600 = q at *
    omega
  rw [hclock, hdiff]
  have h0 : 0 ≤ a % 86400 := Int.emod_nonneg a (by norm_num)
  have h1 : a % 86400 < 86400 := Int.emod_lt_of_pos a (by norm_num)
  clear hclock hdiff habs
  generalize a % 86400 = r at *
  refine ⟨?_, h0, h1⟩
  split_ifs <;> omega

theorem durationpbNew_split (s n : Int) (hs : 0 ≤ s) (hn0 : 0 ≤ n) (hn1 : n < 1000000000) :
    durationpbNew (s * 1000000000 + n) = { seconds := s, nanos := n } := by
  have h : Int.tdiv (s * 1000000000 + n) 1000000000 = s := by
    rw [Int.tdiv_eq_ediv (by omega) (by omega)]
    omega
  simp only [durationpbNew, h]
  congr 1
  omega


/-! ### Claims about `convertValueToProto` -/

/-- C1: a time with declared type DATE or TIMESTAMP is encoded as the
`Timestamp` of that instant, a time with declared type TIME as a `Duration`,
an interval with declared type INTERVAL as the `Interval` with the same
months, days and micros; in none of these cases the result is the `String`
fallback. -/
theorem C1_temporal_rules (lib : Library) (t : Time) (i : Interval) (name : String) :
    convertValueToProto lib (.time t) (some { name := name, databaseTypeName := "DATE" })
      = .ok (.timestamp (timestamppbNew t)) ∧
    convertValueToProto lib (.time t) (some { name := name, databaseTypeName := "TIMESTAMP" })
      = .ok (.timestamp (timestamppbNew t)) ∧
    (∃ d, convertValueToProto lib (.time t) (some { name := name, databaseTypeName := "TIME" })
      = .ok (.duration d)) ∧
    convertValueToProto lib (.interval i) (some { name := name, databaseTypeName := "INTERVAL" })
      = .ok (.interval { months := i.months, days := i.days, micros := i.micros }) := by
  simp [convertValueToProto, convertDeclared, ColumnType.DatabaseTypeName]

/-- C2, as amended: for a time `t` with declared type TIME the result is
`Duration(d)` with `d` the time from midnight of the calendar day of `t` in
its location to `t`. When the location has one UTC offset `off` at every
instant (as UTC has), `d` is
`hour*3600e9 + minute*60e9 + second*1e9 + nanosecond` of the clock reading of
`t`, `0 ≤ d < 24h`, the `Duration` message holds the seconds and nanoseconds
of the clock reading and decodes to `d`, and a time with the same clock
reading on another date, in a location of one offset, has the same encoding. -/
theorem C2_time_of_day (lib : Library) (t : Time) (name : String) (off : Int)
    (hfix : ∀ sec, (t.loc.lookup sec).1.offset = off) (hns : t.nsec < 1000000000) :
    convertValueToProto lib (.time t) (some { name := name, databaseTypeName := "TIME" })
      = .ok (.duration (durationpbNew
          (t.Sub (Date t.Year t.Month t.Day 0 0 0 0 t.Location)))) ∧
    t.Sub (Date t.Year t.Month t.Day 0 0 0 0 t.Location)
      = t.Hour * 3600000000000 + t.Minute * 60000000000 + t.Second * 1000000000
        + t.Nanosecond ∧
    0 ≤ t.Sub (Date t.Year t.Month t.Day 0 0 0 0 t.Location) ∧
    t.Sub (Date t.Year t.Month t.Day 0 0 0 0 t.Location) < 86400000000000 ∧
    durationpbNew (t.Sub (Date t.Year t.Month t.Day 0 0 0 0 t.Location))
      = { seconds := t.Hour * 3600 + t.Minute * 60 + t.Second, nanos := t.Nanosecond } ∧
    (durationpbNew (t.Sub (Date t.Year t.Month t.Day 0 0 0 0 t.Location))).AsDuration
      = t.Sub (Date t.Year t.Month t.Day 0 0 0 0 t.Location) ∧
    ∀ (u : Time) (name1 : String) (off1 : Int),
      (∀ sec, (u.loc.lookup sec).1.offset = off1) → u.nsec < 1000000000 →
      u.Hour = t.Hour → u.Minute = t.Minute → u.Second = t.Second →
      u.Nanosecond = t.Nanosecond →
      convertValueToProto lib (.time u) (some { name := name1, databaseTypeName := "TIME" })
        = convertValueToProto lib (.time t) (some { name := name, databaseTypeName := "TIME" }) := by
  have conv : ∀ (u : Time) (n : String),
      convertValueToProto lib (.time u) (some { name := n, databaseTypeName := "TIME" })
        = .ok (.duration (durationpbNew
            (u.Sub (Date u.Year u.Month u.Day 0 0 0 0 u.Location)))) := by
    intro u n
    simp [convertValueToProto, convertDeclared, ColumnType.DatabaseTypeName]
  obtain ⟨h1, h2, h3⟩ := Sub_midnight t off hfix hns
  have hn0 : 0 ≤ t.Nanosecond := by simp [Time.Nanosecond]
  have hn1 : t.Nanosecond < 1000000000 := by
    simp only [Time.Nanosecond]
    exact_mod_cast hns
  refine ⟨conv t name, by rw [h1]; ring, by rw [h1]; omega, by rw [h1]; omega, ?_, ?_, ?_⟩
  · rw [h1]
    exact durationpbNew_split _ _ h2 hn0 hn1
  · simp [durationpbNew, PbDuration.AsDuration]
  · intro u name1 off1 ufix uns eh em es en
    obtain ⟨g1, _, _⟩ := Sub_midnight u off1 ufix uns
    rw [conv u name1, conv t name, g1, h1, eh, em, es, en]

/-- C3: a nil value is encoded as `Null`, without error, whatever the
declared type, an absent one included. -/
theorem C3_null (lib : Library) (colType : Option ColumnType) :
    convertValueToProto lib .nil colType = .ok .null := by
  simp [convertValueToProto]

/-- C4: a value built from lists and maps with leaves nil, `int64`,
`float64`, `bool`, `string` or `[]byte` is encoded without error under every
declared type; decoding the result gives the value back; a list becomes a
`List` of the same length whose elements are, in order, the encodings of its
items with no declared type; a map becomes a `Map` with the same keys whose
entries are the encodings of its entries with no declared type. -/
theorem C4_composite_round_trip (lib : Library) (v : GoValue) (colType : Option ColumnType)
    (hplain : plainValue v = true) :
    ∃ w, convertValueToProto lib v colType = .ok w ∧ decodeValue w = some v ∧
      (∀ items, v = .list items → ∃ ws, w = .list ws ∧ ws.length = items.length ∧
        List.Forall₂ (fun x y => convertValueToProto lib x none = .ok y) items ws) ∧
      (∀ entries, v = .map entries → ∃ fs, w = .map fs ∧
        fs.map Prod.fst = entries.map Prod.fst ∧
        List.Forall₂ (fun e f => f.1 = e.1 ∧ convertValueToProto lib e.2 none = .ok f.2)
          entries fs) := by
  obtain ⟨w, hw, hdec⟩ := decode_convertValueToProto lib v colType hplain
  refine ⟨w, hw, hdec, ?_, ?_⟩
  · intro items hv
    subst hv
    obtain ⟨ws, hws, hrel⟩ := convertListItems_forall₂ lib items
    refine ⟨ws, ?_, hrel.length_eq.symm, hrel⟩
    simp [convertValueToProto, convertDeclared_eq_none, hws] at hw
    exact hw.symm
  · intro entries hv
    subst hv
    simp only [plainValue, Bool.and_eq_true, decide_eq_true_eq] at hplain
    obtain ⟨fs, hfs, hrel⟩ := convertMapEntries_forall₂ lib entries [] hplain.2 (by simp)
    refine ⟨fs, ?_, ?_, hrel⟩
    · simp [convertValueToProto, convertDeclared_eq_none, hfs] at hw
      exact hw.symm
    · clear hfs hw hdec hplain
      induction hrel with
      | nil => rfl
      | cons h _ ih => simp [h.1, ih]

/-- C5, as amended: a value of a kind that reaches the `default` branch is
encoded without error, under every declared type, as the `String` whose text
is `fmt.Sprint` of the value. -/
theorem C5_fallback_string (lib : Library) (v : GoValue) (colType : Option ColumnType)
    (h : unrecognized v colType = true) :
    convertValueToProto lib v colType = .ok (.string (fmtSprint lib v)) := by
  cases v <;> simp_all [unrecognized, convertValueToProto, convertDeclared_eq_none]

/-- C10: for a value that is neither a time nor an interval the encoding is
the same under any two declared types, absent ones included, and it is the
result of the type switch on the value alone: nil gives `Null`, an `int64`
gives `Int64`, a `float64` gives `Double`, a decimal gives the `Double` of
its `Float64()`, a `bool` gives `Bool`, a `string` gives `String`, a `[]byte`
gives `Bytes`, a list gives the `List` of its items encoded in order with no
declared type, a map gives the `Map` its entries build when encoded with no
declared type (one entry per key, in order, when the keys are distinct), and
every other kind gives the `String` of `fmt.Sprint`. -/
theorem C10_declared_type_irrelevant (lib : Library) (v : GoValue)
    (c1 c2 : Option ColumnType) (ht : ∀ t, v ≠ .time t) (hi : ∀ i, v ≠ .interval i) :
    convertValueToProto lib v c1 = convertValueToProto lib v c2 ∧
    convertValueToProto lib v c1 = convertValueToProto lib v none ∧
    (v = .nil → convertValueToProto lib v c1 = .ok .null) ∧
    (∀ n, v = .int64 n → convertValueToProto lib v c1 = .ok (.int64 n)) ∧
    (∀ f, v = .float64 f → convertValueToProto lib v c1 = .ok (.double f)) ∧
    (∀ d, v = .decimal d →
      convertValueToProto lib v c1 = .ok (.double (lib.decimalFloat64 d))) ∧
    (∀ b, v = .bool b → convertValueToProto lib v c1 = .ok (.bool b)) ∧
    (∀ s, v = .string s → convertValueToProto lib v c1 = .ok (.string s)) ∧
    (∀ b, v = .bytes b → convertValueToProto lib v c1 = .ok (.bytes b)) ∧
    (∀ items, v = .list items → ∃ ws, convertValueToProto lib v c1 = .ok (.list ws) ∧
      ws.length = items.length ∧
      List.Forall₂ (fun x y => convertValueToProto lib x none = .ok y) items ws) ∧
    (∀ entries, v = .map entries → ∃ fs, convertValueToProto lib v c1 = .ok (.map fs) ∧
      convertMapEntries lib entries [] = .ok fs ∧
      ((entries.map Prod.fst).Nodup →
        List.Forall₂ (fun e f => f.1 = e.1 ∧ convertValueToProto lib e.2 none = .ok f.2)
          entries fs)) ∧
    (unrecognized v c1 = true →
      convertValueToProto lib v c1 = .ok (.string (fmtSprint lib v))) := by
  refine ⟨?_, ?_, ?_, ?_, ?_, ?_, ?_, ?_, ?_, ?_, ?_, ?_⟩
  · cases v <;> simp_all [convertValueToProto, convertDeclared_eq_none]
  · cases v <;> simp_all [convertValueToProto, convertDeclared_eq_none]
  · intro hv
    subst hv
    simp [convertValueToProto]
  · intro n hv
    subst hv
    simp [convertValueToProto, convertDeclared_eq_none]
  · intro f hv
    subst hv
    simp [convertValueToProto, convertDeclared_eq_none]
  · intro d hv
    subst hv
    simp [convertValueToProto, convertDeclared_eq_none]
  · intro b hv
    subst hv
    simp [convertValueToProto, convertDeclared_eq_none]
  · intro s hv
    subst hv
    simp [convertValueToProto, convertDeclared_eq_none]
  · intro b hv
    subst hv
    simp [convertValueToProto, convertDeclared_eq_none]
  · intro items hv
    subst hv
    obtain ⟨ws, hws, hrel⟩ := convertListItems_forall₂ lib items
    exact ⟨ws, by simp [convertValueToProto, convertDeclared_eq_none, hws],
      hrel.length_eq.symm, hrel⟩
  · intro entries hv
    subst hv
    obtain ⟨fs, hfs⟩ := convertMapEntries_total lib entries []
    refine ⟨fs, by simp [convertValueToProto, convertDeclared_eq_none, hfs], hfs, ?_⟩
    intro hnd
    obtain ⟨gs, hgs, hrel⟩ := convertMapEntries_forall₂ lib entries [] hnd (by simp)
    simp only [List.nil_append] at hgs
    rw [hfs] at hgs
    cases hgs
    exact hrel
  · intro hu
    cases v <;> simp_all [unrecognized, convertValueToProto, convertDeclared_eq_none]

/-- Witness of C2: 01:02:03.456 in UTC is encoded as 1h2m3.456s. -/
theorem C2_time_of_day_witness :
    (∀ sec, (timeOfDay.loc.lookup sec).1.offset = 0) ∧ timeOfDay.nsec < 1000000000 ∧
    convertValueToProto sampleLibrary (.time timeOfDay)
      (some { name := "e", databaseTypeName := "TIME" })
      = .ok (.duration { seconds := 3723, nanos := 456000000 }) := by
  have h := C2_time_of_day sampleLibrary timeOfDay "e" 0 (fun _ => rfl) (by decide)
  refine ⟨fun _ => rfl, by decide, ?_⟩
  rw [h.1, h.2.2.2.2.1]
  rfl

/-- Counterexample to C2 as stated: on the day daylight saving time begins in
New York, 15:00:00 is encoded as 14h, the same clock time a day later as 15h;
on the day it ends, 23:30:00 is encoded as 24h30m. -/
theorem C2_counterexample :
    (springForward.Hour = 15 ∧ springForward.Minute = 0 ∧ springForward.Second = 0 ∧
      springForward.Nanosecond = 0 ∧
      convertValueToProto sampleLibrary (.time springForward)
        (some { name := "e", databaseTypeName := "TIME" })
        = .ok (.duration (durationpbNew (14 * 3600000000000)))) ∧
    (dayAfter.Hour = 15 ∧ dayAfter.Minute = 0 ∧ dayAfter.Second = 0 ∧ dayAfter.Nanosecond = 0 ∧
      convertValueToProto sampleLibrary (.time dayAfter)
        (some { name := "e", databaseTypeName := "TIME" })
        = .ok (.duration (durationpbNew (15 * 3600000000000)))) ∧
    (fallBack.Hour = 23 ∧ fallBack.Minute = 30 ∧
      convertValueToProto sampleLibrary (.time fallBack)
        (some { name := "e", databaseTypeName := "TIME" })
        = .ok (.duration (durationpbNew (24 * 3600000000000 + 30 * 60000000000)))) := by
  refine ⟨⟨by decide, by decide, by decide, by decide, by rfl⟩,
    ⟨by decide, by decide, by decide, by decide, by rfl⟩, ⟨by decide, by decide, by rfl⟩⟩

/-- Witness of C4: the round trip of a nested value. -/
theorem C4_composite_round_trip_witness :
    plainValue nestedExample = true ∧
    ∃ w, convertValueToProto sampleLibrary nestedExample none = .ok w ∧
      decodeValue w = some nestedExample :=
  ⟨by rfl, (C4_composite_round_trip sampleLibrary nestedExample none (by rfl)).imp
    (fun _ hw => ⟨hw.1, hw.2.1⟩)⟩

/-- Witness of C5: an `int32` in a column of declared type INTEGER is encoded
as the `String` of its decimal digits. -/
theorem C5_fallback_string_witness :
    unrecognized (.int32 123) (some { name := "a", databaseTypeName := "INTEGER" }) = true ∧
    convertValueToProto sampleLibrary (.int32 123)
      (some { name := "a", databaseTypeName := "INTEGER" })
      = .ok (.string (fmtSprint sampleLibrary (.int32 123))) :=
  ⟨by rfl, C5_fallback_string sampleLibrary (.int32 123) _ (by rfl)⟩

/-- Counterexample to C5 as stated: the empty value of a defined string type
is of an unrecognized kind and is encoded as the empty `String`. -/
theorem C5_counterexample :
    unrecognized (.definedString "") none = true ∧
    convertValueToProto sampleLibrary (.definedString "") none = .ok (.string "") ∧
    ¬ (∀ (lib : Library) (v : GoValue) (colType : Option ColumnType),
        unrecognized v colType = true →
        ∃ s, convertValueToProto lib v colType = .ok (.string s) ∧ s ≠ "") := by
  refine ⟨by rfl, by rfl, ?_⟩
  intro h
  obtain ⟨s, hs, hne⟩ := h sampleLibrary (.definedString "") none (by rfl)
  simp [convertValueToProto, convertDeclared, fmtSprint] at hs
  exact hne hs.symm

/-- Witness of C10: an `int64` in a TIME column is encoded as `Int64`, as it
is with no declared type, and a `string` in an INTERVAL column as `String`. -/
theorem C10_declared_type_irrelevant_witness :
    (convertValueToProto sampleLibrary (.int64 5)
        (some { name := "e", databaseTypeName := "TIME" })
      = convertValueToProto sampleLibrary (.int64 5) none ∧
      convertValueToProto sampleLibrary (.int64 5)
        (some { name := "e", databaseTypeName := "TIME" }) = .ok (.int64 5)) ∧
    convertValueToProto sampleLibrary (.string "5 days")
      (some { name := "g", databaseTypeName := "INTERVAL" }) = .ok (.string "5 days") :=
  ⟨⟨(C10_declared_type_irrelevant sampleLibrary (.int64 5)
        (some { name := "e", databaseTypeName := "TIME" }) none (by simp) (by simp)).1,
      (C10_declared_type_irrelevant sampleLibrary (.int64 5)
        (some { name := "e", databaseTypeName := "TIME" }) none (by simp)
        (by simp)).2.2.2.1 5 rfl⟩,
    (C10_declared_type_irrelevant sampleLibrary (.string "5 days")
      (some { name := "g", databaseTypeName := "INTERVAL" }) none (by simp)
      (by simp)).2.2.2.2.2.2.2.1 "5 days" rfl⟩

/-! ## The streaming session -/

theorem convertRowValues_ok (lib : Library) (colTypes : List ColumnType) :
    ∀ (row : List GoValue) (i : Nat), i + row.length ≤ colTypes.length →
    ∃ vs, convertRowValues lib colTypes i row = .ret (.ok vs) ∧ vs.length = row.length ∧
      ∀ (j : Nat) x ct y, row[j]? = some x → colTypes[i + j]? = some ct → vs[j]? = some y →
        convertValueToProto lib x (some ct) = .ok y
  | [], _, _ => ⟨[], by simp [convertRowValues]⟩
  | v :: rest, i, h => by
    simp only [List.length_cons] at h
    have hi : i < colTypes.length := by omega
    obtain ⟨w, hw⟩ := convertValueToProto_total lib v (some colTypes[i])
    obtain ⟨vs, hvs, hlen, hrel⟩ := convertRowValues_ok lib colTypes rest (i + 1) (by omega)
    refine ⟨w :: vs, ?_, by simp [hlen], ?_⟩
    · simp [convertRowValues, List.getElem?_eq_getElem hi, hw, hvs]
    · intro j x ct y hx hct hy
      cases j with
      | zero =>
        simp only [List.getElem?_cons_zero, Option.some.injEq] at hx hy
        simp only [Nat.add_zero, List.getElem?_eq_getElem hi, Option.some.injEq] at hct
        subst hx hy hct
        exact hw
      | succ j =>
        simp only [List.getElem?_cons_succ] at hx hy
        exact hrel j x ct y hx (by rw [← hct]; congr 1; omega) hy

/-- One row of the result set is encoded cell by cell against the columns. -/
theorem convertRowToProto_ok (lib : Library) (colTypes : List ColumnType) (row : List GoValue)
    (h : row.length = colTypes.length) :
    ∃ vs, convertRowToProto lib row colTypes = .ret (.ok vs) ∧ vs.length = colTypes.length ∧
      ∀ (j : Nat) x ct y, row[j]? = some x → colTypes[j]? = some ct → vs[j]? = some y →
        convertValueToProto lib x (some ct) = .ok y := by
  obtain ⟨vs, h1, h2, h3⟩ := convertRowValues_ok lib colTypes row 0 (by omega)
  refine ⟨vs, h1, by omega, ?_⟩
  intro j x ct y hx hct hy
  exact h3 j x ct y hx (by simpa using hct) hy

theorem Next_cons (iter : SqlIterator) (row : List GoValue) (rest : List (List GoValue))
    (hp : iter.rows.pending = row :: rest) (hlen : row.length = iter.columns.length) :
    iter.Next = (.ok row, { iter with rows := { iter.rows with pending := rest, current := some row } }) := by
  simp [SqlIterator.Next, Rows.Next, hp, Rows.Scan, hlen]

theorem Next_nil (iter : SqlIterator) (hp : iter.rows.pending = []) :
    iter.Next = (.error .errNoRows,
      { iter with rows := { iter.rows with current := none, lasterr := iter.rows.failure } }) := by
  simp [SqlIterator.Next, Rows.Next, hp]

theorem streamRows_error (lib : Library) (colTypes : List ColumnType) (iter iter1 : SqlIterator)
    (stream : ServerStream) (err : GoError) (h : iter.Next = (.error err, iter1)) :
    streamRows lib colTypes iter stream
      = if err.isErrNoRows then (.ret none, stream) else (.ret (some err), stream) := by
  rw [streamRows]
  split
  · rename_i heq
    rw [h] at heq
    cases heq
    rfl
  · rename_i heq
    rw [h] at heq
    cases heq

theorem streamRows_ok (lib : Library) (colTypes : List ColumnType) (iter iter1 : SqlIterator)
    (stream : ServerStream) (rowValues : List GoValue) (h : iter.Next = (.ok rowValues, iter1)) :
    streamRows lib colTypes iter stream
      = match convertRowToProto lib rowValues colTypes with
        | .panic msg => (.panic msg, stream)
        | .ret (.error err) => (.ret (some err), stream)
        | .ret (.ok protoRow) =>
          match stream.Send (.row protoRow) with
          | (some err, stream1) => (.ret (some err), stream1)
          | (none, stream1) => streamRows lib colTypes iter1 stream1 := by
  rw [streamRows]
  split
  · rename_i heq
    rw [h] at heq
    cases heq
  · rename_i heq
    rw [h] at heq
    cases heq
    rfl

/-- The loop over a cursor whose rows all have one value per column, on a
stream that accepts every message: every row is sent, in order, and the loop
returns nil when `Next` reports that no row is left. -/
theorem streamRows_all (lib : Library) (colTypes : List ColumnType) :
    ∀ (pending : List (List GoValue)) (iter : SqlIterator) (stream : ServerStream),
    iter.rows.pending = pending → iter.columns = colTypes →
    (∀ r ∈ pending, r.length = colTypes.length) → (∀ n, stream.sendErr n = none) →
    ∃ msgs, streamRows lib colTypes iter stream
        = (.ret none, { stream with sent := stream.sent ++ msgs }) ∧
      List.Forall₂ (fun r m => ∃ vs, m = ExecuteQueryResponse.row vs ∧
        vs.length = colTypes.length ∧
        ∀ (j : Nat) x ct y, r[j]? = some x → colTypes[j]? = some ct → vs[j]? = some y →
          convertValueToProto lib x (some ct) = .ok y) pending msgs
  | [], iter, stream, hp, _, _, _ => by
    refine ⟨[], ?_, List.Forall₂.nil⟩
    rw [streamRows_error lib colTypes iter _ stream _ (Next_nil iter hp)]
    simp [GoError.isErrNoRows]
  | row :: rest, iter, stream, hp, hc, hlen, hsend => by
    have hrow : row.length = colTypes.length := hlen row (by simp)
    obtain ⟨vs, hvs, hvlen, hrel⟩ := convertRowToProto_ok lib colTypes row hrow
    obtain ⟨msgs, hmsgs, hall⟩ := streamRows_all lib colTypes rest
      { iter with rows := { iter.rows with pending := rest, current := some row } }
      { stream with sent := stream.sent ++ [.row vs] } rfl hc
      (fun r hr => hlen r (by simp [hr])) hsend
    refine ⟨.row vs :: msgs, ?_, List.Forall₂.cons ⟨vs, rfl, hvlen, hrel⟩ hall⟩
    rw [streamRows_ok lib colTypes iter _ stream _
      (Next_cons iter row rest hp (by rw [hc]; exact hrow))]
    simp [hvs, ServerStream.Send, hsend, hmsgs]


/-- A query that the engine executes, over a cursor whose rows all have one
value per column, on a stream that accepts every message: the engine is
called once, the header and then every row are sent in order, and the call
returns nil when `Next` reports that no row is left, whether the cursor
ended cleanly or failed. -/
theorem ExecuteQuery_rows (lib : Library) (s : DbServer) (req : QueryRequest)
    (stream : ServerStream) (rows : Rows) (cols : List ColumnType)
    (hq : req.GetSql ≠ "") (hexec : s.db req.GetSql = .ok rows)
    (hcols : rows.ColumnTypes = .ok cols)
    (hlen : ∀ r ∈ rows.pending, r.length = cols.length)
    (hsend : ∀ n, stream.sendErr n = none) :
    ∃ msgs, ExecuteQuery lib s req stream
        = (.ret none, { s with queries := s.queries ++ [req.GetSql] },
            { stream with sent := stream.sent
                ++ .header (cols.map (fun ct => { name := ct.Name, type := ct.DatabaseTypeName }))
                  :: msgs }) ∧
      List.Forall₂ (fun r m => ∃ vs, m = ExecuteQueryResponse.row vs ∧
        vs.length = cols.length ∧
        ∀ (j : Nat) x ct y, r[j]? = some x → cols[j]? = some ct → vs[j]? = some y →
          convertValueToProto lib x (some ct) = .ok y) rows.pending msgs := by
  obtain ⟨msgs, hmsgs, hall⟩ := streamRows_all lib cols rows.pending
    { rows := rows, columns := cols }
    { stream with sent := stream.sent
        ++ [.header (cols.map (fun ct => { name := ct.Name, type := ct.DatabaseTypeName }))] }
    rfl rfl hlen hsend
  refine ⟨msgs, ?_, hall⟩
  simp [ExecuteQuery, hq, DbServer.Query, hexec, NewSqlIterator, hcols, SqlIterator.Columns,
    ServerStream.Send, hsend, hmsgs]

/-- C6, as amended: for the empty query text `ExecuteQuery` returns an error
at once; the engine is not called and nothing is sent on the stream. -/
theorem C6_empty_query (lib : Library) (s : DbServer) (stream : ServerStream) :
    ExecuteQuery lib s { sql := "" } stream
      = (.ret (some (.new "sql string is empty")), s, stream) := by
  simp [ExecuteQuery, QueryRequest.GetSql]

/-- Counterexample to C6 as stated: the query text of one space is blank,
and it is submitted to the engine; the error returned is the one of the
engine. -/
theorem C6_counterexample :
    blank " " = true ∧
    ExecuteQuery sampleLibrary rejectingServer { sql := " " } freshStream
      = (.ret (some (.new
            "error executing query: failed to query data: Parser Error: syntax error")),
          { rejectingServer with queries := [" "] }, freshStream) := by
  refine ⟨by decide, ?_⟩
  simp [ExecuteQuery, QueryRequest.GetSql, DbServer.Query, rejectingServer, GoError.Error]

/-- C7, what the code does: when the cursor delivers `k` rows and then fails
with `err`, `ExecuteQuery` sends the header and the `k` rows and returns nil,
as for a result set that ended cleanly. -/
theorem C7_failure_after_rows_returns_nil (lib : Library) (s : DbServer) (req : QueryRequest)
    (stream : ServerStream) (rows : Rows) (cols : List ColumnType) (err : GoError)
    (hq : req.GetSql ≠ "") (hexec : s.db req.GetSql = .ok rows)
    (hcols : rows.ColumnTypes = .ok cols)
    (hlen : ∀ r ∈ rows.pending, r.length = cols.length)
    (_hfail : rows.failure = some err)
    (hsend : ∀ n, stream.sendErr n = none) :
    ∃ msgs, ExecuteQuery lib s req stream
        = (.ret none, { s with queries := s.queries ++ [req.GetSql] },
            { stream with sent := stream.sent
                ++ .header (cols.map (fun ct => { name := ct.Name, type := ct.DatabaseTypeName }))
                  :: msgs }) ∧
      msgs.length = rows.pending.length ∧
      ∀ m ∈ msgs, ∃ vs, m = ExecuteQueryResponse.row vs := by
  obtain ⟨msgs, h1, h2⟩ := ExecuteQuery_rows lib s req stream rows cols hq hexec hcols hlen hsend
  refine ⟨msgs, h1, h2.length_eq.symm, ?_⟩
  clear h1 hlen _hfail
  generalize rows.pending = pending at h2
  induction h2 with
  | nil => simp
  | cons h _ ih =>
    intro m hm
    simp only [List.mem_cons] at hm
    rcases hm with hm | hm
    · obtain ⟨vs, hvs, _⟩ := h
      exact ⟨vs, hm ▸ hvs⟩
    · exact ih m hm

/-- Witness of C7: a cursor that fails after one row. -/
theorem C7_failure_after_rows_returns_nil_witness :
    brokenRows.failure = some (.new "connection reset by peer") ∧
    ∃ msgs, ExecuteQuery sampleLibrary brokenServer { sql := "SELECT a FROM t" } freshStream
        = (.ret none, { brokenServer with queries := ["SELECT a FROM t"] },
            { freshStream with sent := .header [ { name := "a", type := "BIGINT" } ] :: msgs }) ∧
      msgs.length = 1 :=
  ⟨rfl, (C7_failure_after_rows_returns_nil sampleLibrary brokenServer { sql := "SELECT a FROM t" }
    freshStream brokenRows _ _ (by decide) rfl rfl (by simp [brokenRows]) rfl
    (fun _ => rfl)).imp (fun _ h => ⟨h.1, h.2.1⟩)⟩

/-- C8, what the code does: when the cursor has no row left because its
advancement failed with `err`, `Next` returns `sql.ErrNoRows`, the signal of
exhaustion; the error stays in `rows.Err()`, which `Next` does not read. -/
theorem C8_failure_reported_as_exhausted (iter : SqlIterator) (err : GoError)
    (hp : iter.rows.pending = []) (hfail : iter.rows.failure = some err) :
    iter.Next.1 = .error .errNoRows ∧ iter.Next.2.rows.Err = some err := by
  simp [Next_nil iter hp, Rows.Err, hfail]

/-- Witness of C8: the iterator of a cursor whose connection failed. -/
theorem C8_failure_reported_as_exhausted_witness :
    failedIterator.rows.pending = [] ∧
    failedIterator.rows.failure = some (.new "connection reset by peer") ∧
    failedIterator.Next.1 = .error .errNoRows ∧
    failedIterator.Next.2.rows.Err = some (.new "connection reset by peer") :=
  ⟨rfl, rfl, C8_failure_reported_as_exhausted failedIterator _ rfl rfl⟩

/-- C9: for a non-empty query that the engine executes with columns
`c_1..c_m`, whose cursor delivers `n` rows of `m` values and then ends
cleanly, on a stream that accepts every message, `ExecuteQuery` returns nil
and sends `n + 1` messages: the header listing name and declared type of the
columns in order, then for each row in cursor order one `Row` of `m` values
whose `j`-th value is `convertValueToProto` of the `j`-th cell and `c_j`. The
engine is called once. -/
theorem C9_header_then_rows (lib : Library) (s : DbServer) (req : QueryRequest)
    (stream : ServerStream) (rows : Rows) (cols : List ColumnType)
    (hq : req.GetSql ≠ "") (hexec : s.db req.GetSql = .ok rows)
    (hcols : rows.ColumnTypes = .ok cols)
    (hlen : ∀ r ∈ rows.pending, r.length = cols.length)
    (_hclean : rows.failure = none)
    (hsend : ∀ n, stream.sendErr n = none) :
    ∃ msgs, ExecuteQuery lib s req stream
        = (.ret none, { s with queries := s.queries ++ [req.GetSql] },
            { stream with sent := stream.sent
                ++ .header (cols.map (fun ct => { name := ct.Name, type := ct.DatabaseTypeName }))
                  :: msgs }) ∧
      msgs.length = rows.pending.length ∧
      List.Forall₂ (fun r m => ∃ vs, m = ExecuteQueryResponse.row vs ∧
        vs.length = cols.length ∧
        ∀ (j : Nat) x ct y, r[j]? = some x → cols[j]? = some ct → vs[j]? = some y →
          convertValueToProto lib x (some ct) = .ok y) rows.pending msgs := by
  obtain ⟨msgs, h1, h2⟩ := ExecuteQuery_rows lib s req stream rows cols hq hexec hcols hlen hsend
  exact ⟨msgs, h1, h2.length_eq.symm, h2⟩

/-- Witness of C9: the example session of two rows sends three messages. -/
theorem C9_header_then_rows_witness :
    exampleRows.failure = none ∧
    ∃ msgs, ExecuteQuery sampleLibrary exampleServer { sql := "SELECT * FROM t" } freshStream
        = (.ret none, { exampleServer with queries := ["SELECT * FROM t"] },
            { freshStream with sent :=
                (.header [{ name := "hello", type := "VARCHAR" }, { name := "d", type := "DATE" },
                  { name := "e", type := "TIME" }, { name := "g", type := "INTERVAL" }])
                :: msgs }) ∧
      msgs.length = 2 :=
  ⟨rfl, (C9_header_then_rows sampleLibrary exampleServer { sql := "SELECT * FROM t" }
    freshStream exampleRows _ (by decide) rfl rfl (by simp [exampleRows, exampleColumns]) rfl
    (fun _ => rfl)).imp (fun _ h => ⟨h.1, h.2.1⟩)⟩

/-- The example session of the specification, evaluated: the header of four
columns, then `[String("world"), Timestamp(1992-09-20T00:00:00),
Duration(1h2m3.456s), Interval{0,5,0}]` and `[String("world2"),
Timestamp(2023-11-01T00:00:00), Duration(14h30m45.123s), Interval{2,0,0}]`,
then nil. -/
theorem example_session :
    ExecuteQuery sampleLibrary exampleServer { sql := "SELECT * FROM t" } freshStream
      = (.ret none, { exampleServer with queries := ["SELECT * FROM t"] },
          { freshStream with sent :=
            [ .header [{ name := "hello", type := "VARCHAR" }, { name := "d", type := "DATE" },
                { name := "e", type := "TIME" }, { name := "g", type := "INTERVAL" }],
              .row [.string "world", .timestamp { seconds := 716947200, nanos := 0 },
                .duration { seconds := 3723, nanos := 456000000 },
                .interval { months := 0, days := 5, micros := 0 }],
              .row [.string "world2", .timestamp { seconds := 1698796800, nanos := 0 },
                .duration { seconds := 52245, nanos := 123000000 },
                .interval { months := 2, days := 0, micros := 0 }] ] }) := by
  have c1 : convertRowToProto sampleLibrary
      [ .string "world", .time { sec := 716947200, nsec := 0, loc := UTC },
          .time timeOfDay, .interval { days := 5, months := 0, micros := 0 } ] exampleColumns
      = .ret (.ok [.string "world", .timestamp { seconds := 716947200, nanos := 0 },
                .duration { seconds := 3723, nanos := 456000000 },
                .interval { months := 0, days := 5, micros := 0 }]) := by rfl
  have c2 : convertRowToProto sampleLibrary
      [ .string "world2", .time { sec := 1698796800, nsec := 0, loc := UTC },
          .time { sec := 52245, nsec := 123000000, loc := UTC },
          .interval { days := 0, months := 2, micros := 0 } ] exampleColumns
      = .ret (.ok [.string "world2", .timestamp { seconds := 1698796800, nanos := 0 },
                .duration { seconds := 52245, nanos := 123000000 },
                .interval { months := 2, days := 0, micros := 0 }]) := by rfl
  simp only [ExecuteQuery, QueryRequest.GetSql, DbServer.Query, exampleServer, NewSqlIterator,
    Rows.ColumnTypes, exampleRows, SqlIterator.Columns, ServerStream.Send, freshStream]
  rw [if_neg (by decide)]
  simp only [List.length_nil, List.nil_append]
  rw [streamRows_ok _ _ _ _ _ _ (Next_cons _ _ _ rfl rfl), c1]
  simp only [ServerStream.Send]
  rw [streamRows_ok _ _ _ _ _ _ (Next_cons _ _ _ rfl rfl), c2]
  simp only [ServerStream.Send]
  rw [streamRows_error _ _ _ _ _ _ (Next_nil _ rfl)]
  simp [GoError.isErrNoRows, exampleColumns, ColumnType.Name, ColumnType.DatabaseTypeName]

/-- The session over the cursor that fails after one row, evaluated: the
header and the row are sent and the call returns nil. -/
theorem broken_session :
    ExecuteQuery sampleLibrary brokenServer { sql := "SELECT a FROM t" } freshStream
      = (.ret none, { brokenServer with queries := ["SELECT a FROM t"] },
          { freshStream with sent :=
            [ .header [{ name := "a", type := "BIGINT" }], .row [.int64 1] ] }) := by
  have c1 : convertRowToProto sampleLibrary [.int64 1]
      [{ name := "a", databaseTypeName := "BIGINT" }] = .ret (.ok [.int64 1]) := by rfl
  simp only [ExecuteQuery, QueryRequest.GetSql, DbServer.Query, brokenServer, NewSqlIterator,
    Rows.ColumnTypes, brokenRows, SqlIterator.Columns, ServerStream.Send, freshStream]
  rw [if_neg (by decide)]
  simp only [List.length_nil, List.nil_append]
  rw [streamRows_ok _ _ _ _ _ _ (Next_cons _ _ _ rfl rfl), c1]
  simp only [ServerStream.Send]
  rw [streamRows_error _ _ _ _ _ _ (Next_nil _ rfl)]
  simp [GoError.isErrNoRows, ColumnType.Name, ColumnType.DatabaseTypeName]

end Lakehouse
